import Mathlib

/-!
Shallow embedding of the zylog log-formatting library (Go).

The repository contains two coexisting variants of the formatting core:
* a Colours-configurable formatter (`colors` package, `formatter/common.go`,
  and the `LogLine.Format` / `ColorLevel` taking a `*colors.Colours`), and
* a hardcoded-color formatter (one-argument `FormatTimestamp` etc. and the
  four-argument `ColorLevel`), which is the one called by `SLogHandler`.

Both are embedded below.  Go strings become Lean `String`; Go `int` becomes
`Int` where sign matters; the `fatih/color` package's process-wide `NoColor`
flag is threaded as an explicit `noColor : Bool` parameter; a nil `*Color`
becomes `Option Color`.  `logrus.Entry.Data` is a Go map, so `LogLine.Format`
takes the map contents *in iteration order* as a list; two lists that are
permutations of each other denote the same map.
-/

namespace zylog

/-- Go `unicode.IsSpace` restricted to the characters it recognizes
(model of the whitespace set used by `strings.TrimSpace`). -/
def isGoSpace (c : Char) : Bool :=
  c = ' ' || c = '\t' || c = '\n' || c = '\x0b' || c = '\x0c' || c = '\r' ||
  c = '\x85' || c = '\xa0'

/-- Core of Go `strings.TrimSpace` on character lists. -/
def trimChars (l : List Char) : List Char :=
  ((l.dropWhile isGoSpace).reverse.dropWhile isGoSpace).reverse

/-- Go `strings.TrimSpace`. -/
def goTrimSpace (s : String) : String :=
  String.mk (trimChars s.data)

/-- The decimal digit character for `n % 10`. -/
def digitChar (n : Nat) : Char :=
  Char.ofNat (48 + n % 10)

/-- Fuel-bounded decimal digit accumulation; `fuel = n + 1` always
suffices. -/
def natCharsAux : Nat → Nat → List Char
  | 0, _ => []
  | fuel + 1, n =>
    if n < 10 then [digitChar n]
    else natCharsAux fuel (n / 10) ++ [digitChar (n % 10)]

/-- Decimal digits of a natural number, most significant first
(model of Go's `%d` / `strconv.Itoa` on non-negative values). -/
def natChars (n : Nat) : List Char :=
  natCharsAux (n + 1) n

/-- Decimal rendering of a natural number as a string. -/
def natStr (n : Nat) : String :=
  String.mk (natChars n)

/-- Zero-pad the decimal rendering of `n` on the left to width `w`. -/
def zeroPad (w : Nat) (n : Nat) : String :=
  String.mk (List.replicate (w - (natChars n).length) '0' ++ natChars n)

/-- ASCII upper-casing of one character (Go `strings.ToUpper`, ASCII range). -/
def asciiUpperChar (c : Char) : Char :=
  if 97 ≤ c.toNat ∧ c.toNat ≤ 122 then Char.ofNat (c.toNat - 32) else c

/-- ASCII lower-casing of one character (Go `strings.ToLower`, ASCII range). -/
def asciiLowerChar (c : Char) : Char :=
  if 65 ≤ c.toNat ∧ c.toNat ≤ 90 then Char.ofNat (c.toNat + 32) else c

/-- Go `strings.ToUpper` (faithful on ASCII input). -/
def goToUpper (s : String) : String :=
  String.mk (s.data.map asciiUpperChar)

/-- Go `strings.ToLower` (faithful on ASCII input). -/
def goToLower (s : String) : String :=
  String.mk (s.data.map asciiLowerChar)

/-- Go `fmt.Sprintf("%*s", w, s)`: space-fill on the left to width `w`
(width counted in runes; no truncation when `s` is already wide enough). -/
def goPadLeft (w : Nat) (s : String) : String :=
  String.mk (List.replicate (w - s.data.length) ' ') ++ s

/-- Go `fmt.Sprintf("%-*s", w, s)`: space-fill on the right to width `w`. -/
def goPadRight (w : Nat) (s : String) : String :=
  s ++ String.mk (List.replicate (w - s.data.length) ' ')

/-- Go `strings.Join l sep`. -/
def goJoin (sep : String) : List String → String
  | [] => ""
  | [x] => x
  | x :: y :: xs => x ++ sep ++ goJoin sep (y :: xs)

/-! ## Package `level` (level/level.go): log level string constants. -/

namespace level

def Trace : String := "TRACE"

def Debug : String := "DEBUG"

def Info : String := "INFO"

def Warn : String := "WARN"

def Warning : String := "WARNING"

def Error : String := "ERROR"

def Fatal : String := "FATAL"

def Panic : String := "PANIC"

end level

/-! ## Package `colors` (the `Color` / `Colours` configuration and
`ApplyColor`).  `color.Attribute` is a small integer; `color.Reset = 0`.
A nil `*Color` is `Option Color` = `none`. -/

namespace colors

/-- `colors.Color`: foreground and background `color.Attribute` values. -/
structure Color where
  Fg : Nat
  Bg : Nat
deriving DecidableEq, Repr

/-- `colors.Colours`: per-element color configuration; each field is a
`*Color` (nil = `none`). -/
structure Colours where
  Timestamp : Option Color
  LevelTrace : Option Color
  LevelDebug : Option Color
  LevelInfo : Option Color
  LevelWarn : Option Color
  LevelWarning : Option Color
  LevelError : Option Color
  LevelFatal : Option Color
  LevelPanic : Option Color
  Message : Option Color
  Arrow : Option Color
  CallerFunction : Option Color
  CallerLine : Option Color
  AttrKey : Option Color
  AttrValue : Option Color
deriving DecidableEq, Repr

/-- `fatih/color` attribute codes used by the repository. -/
def FgRed : Nat := 31

def FgGreen : Nat := 32

def FgYellow : Nat := 33

def FgCyan : Nat := 36

def FgHiBlack : Nat := 90

def FgHiRed : Nat := 91

def FgHiGreen : Nat := 92

def FgHiYellow : Nat := 93

def FgHiMagenta : Nat := 95

def FgHiCyan : Nat := 96

def FgHiWhite : Nat := 97

/-- `colors.Default()`: the built-in default color configuration. -/
def defaultColours : Colours where
  Timestamp := some ⟨FgHiBlack, 0⟩
  LevelTrace := some ⟨FgHiMagenta, 0⟩
  LevelDebug := some ⟨FgHiCyan, 0⟩
  LevelInfo := some ⟨FgHiGreen, 0⟩
  LevelWarn := some ⟨FgHiYellow, 0⟩
  LevelWarning := some ⟨FgHiYellow, 0⟩
  LevelError := some ⟨FgRed, 0⟩
  LevelFatal := some ⟨FgHiRed, 0⟩
  LevelPanic := some ⟨FgHiWhite, 0⟩
  Message := some ⟨FgGreen, 0⟩
  Arrow := some ⟨FgCyan, 0⟩
  CallerFunction := some ⟨FgHiYellow, 0⟩
  CallerLine := some ⟨FgYellow, 0⟩
  AttrKey := some ⟨FgYellow, 0⟩
  AttrValue := some ⟨FgHiYellow, 0⟩

/-- `fatih/color`'s `Color.Sprint`: wrap `s` in the SGR escape sequence for
`attrs` (codes joined by ";"), unless the process-wide `NoColor` flag is set,
in which case `s` is returned unchanged. -/
def colorSprint (noColor : Bool) (attrs : List Nat) (s : String) : String :=
  if noColor then s
  else "\x1b[" ++ goJoin ";" (attrs.map natStr) ++ "m" ++ s ++ "\x1b[0m"

/-- `(*Color).ApplyColor` (colors package): nil receiver or a Reset/Reset
pair returns the string unchanged; otherwise the non-Reset attributes are
applied via `fatih/color`. -/
def ApplyColor (noColor : Bool) : Option Color → String → String
  | none, s => s
  | some c, s =>
    if c.Fg = 0 ∧ c.Bg = 0 then s
    else
      let attrs := (if c.Fg ≠ 0 then [c.Fg] else []) ++
                   (if c.Bg ≠ 0 then [c.Bg] else [])
      if attrs = [] then s
      else colorSprint noColor attrs s

end colors

/-! ## Timestamps.

`TSFormat` and `ToTimeFormat` come from the formatter package; the layout
strings are interpreted by Go's `time.Time.Format`, which we embed as
`goTimeRender` on a concrete broken-down time for exactly the four layouts
`ToTimeFormat` can return. -/

/-- `formatter.TSFormat`. -/
inductive TSFormat where
  | TSUnset
  | RFC3339
  | StandardTimestamp
  | SimpleTimestamp
  | TimeOnly
deriving DecidableEq, Repr

/-- Go layout string constants from the formatter package. -/
def TSSimple : String := "20060102.150405"

def TSStandard : String := "2006/01/02 15:04:05"

def TSTimeOnly : String := "15:04:05"

/-- `TSFormat.ToTimeFormat`: layout string for each format; the default
branch (including `TSUnset`) yields the Simple layout. -/
def TSFormat.ToTimeFormat : TSFormat → String
  | .RFC3339 => "2006-01-02T15:04:05Z07:00"
  | .StandardTimestamp => TSStandard
  | .SimpleTimestamp => TSSimple
  | .TimeOnly => TSTimeOnly
  | .TSUnset => TSSimple

/-- A broken-down instant (model of Go `time.Time` as far as rendering by
the four layouts above is concerned).  `tzMin` is the zone offset east of
UTC in minutes. -/
structure GoTime where
  year : Nat
  month : Nat
  day : Nat
  hour : Nat
  minute : Nat
  second : Nat
  tzMin : Int
deriving DecidableEq, Repr

/-- `HH:MM:SS` rendering shared by the layouts. -/
def clockStr (t : GoTime) : String :=
  zeroPad 2 t.hour ++ ":" ++ zeroPad 2 t.minute ++ ":" ++ zeroPad 2 t.second

/-- Go `time.Time.Format` restricted to the four layout strings produced by
`TSFormat.ToTimeFormat` (any other layout never arises in the code). -/
def goTimeRender (layout : String) (t : GoTime) : String :=
  if layout = TSStandard then
    zeroPad 4 t.year ++ "/" ++ zeroPad 2 t.month ++ "/" ++ zeroPad 2 t.day ++
      " " ++ clockStr t
  else if layout = TSTimeOnly then
    clockStr t
  else if layout = "2006-01-02T15:04:05Z07:00" then
    zeroPad 4 t.year ++ "-" ++ zeroPad 2 t.month ++ "-" ++ zeroPad 2 t.day ++
      "T" ++ clockStr t ++
      (if t.tzMin = 0 then "Z"
       else (if t.tzMin < 0 then "-" else "+") ++
         zeroPad 2 (t.tzMin.natAbs / 60) ++ ":" ++ zeroPad 2 (t.tzMin.natAbs % 60))
  else
    zeroPad 4 t.year ++ zeroPad 2 t.month ++ zeroPad 2 t.day ++ "." ++
      zeroPad 2 t.hour ++ zeroPad 2 t.minute ++ zeroPad 2 t.second

/-! ## The attribute loop.

Both line assemblers render attributes with a `first` flag: every element
but the first is preceded by ", ".  `attrLoop` returns the built string and
the final value of the flag (the flag stays `true` only when the list was
empty). -/

/-- The Go `first`-flag attribute loop, returning the emitted text and the
flag's final value. -/
def attrLoop (render : String × String → String) :
    List (String × String) → Bool → String × Bool
  | [], first => ("", first)
  | a :: rest, first =>
    let piece := (if !first then ", " else "") ++ render a
    let r := attrLoop render rest false
    (piece ++ r.1, r.2)

/-! ## The Colours-based formatter
(`formatter/common.go`, `ColorLevel` and `LogLine.Format` taking
`*colors.Colours`). -/

namespace fmtc

/-- `formatter.FormatTimestamp` (common.go). -/
def FormatTimestamp (noColor : Bool) (timestamp : String) (colours : colors.Colours) : String :=
  colors.ApplyColor noColor colours.Timestamp timestamp

/-- `formatter.FormatMessage` (common.go). -/
def FormatMessage (noColor : Bool) (message : String) (colours : colors.Colours) : String :=
  colors.ApplyColor noColor colours.Message message

/-- `formatter.FormatArrow` (common.go). -/
def FormatArrow (noColor : Bool) (colours : colors.Colours) : String :=
  colors.ApplyColor noColor colours.Arrow " ▶ "

/-- `formatter.FormatCaller` (common.go). -/
def FormatCaller (noColor : Bool) (function : String) (line : Nat) (colours : colors.Colours) : String :=
  let functionStr := colors.ApplyColor noColor colours.CallerFunction function
  let lineStr := colors.ApplyColor noColor colours.CallerLine (natStr line)
  " [" ++ functionStr ++ ":" ++ lineStr ++ "]"

/-- `formatter.FormatAttrKey` (common.go). -/
def FormatAttrKey (noColor : Bool) (key : String) (colours : colors.Colours) : String :=
  colors.ApplyColor noColor colours.AttrKey key

/-- `formatter.FormatAttrValue` (common.go). -/
def FormatAttrValue (noColor : Bool) (value : String) (colours : colors.Colours) : String :=
  colors.ApplyColor noColor colours.AttrValue value

/-- The padding step at the top of `ColorLevel`: pad only when `padLevel`
and `padAmount > 0`, on the left when `padSide = "left"`, else on the
right. -/
def padOf (lvl : String) (padLevel : Bool) (padAmount : Int) (padSide : String) : String :=
  if padLevel ∧ padAmount > 0 then
    if padSide = "left" then goPadLeft padAmount.toNat lvl
    else goPadRight padAmount.toNat lvl
  else lvl

/-- The `switch trimmedLvl` of `ColorLevel`: the selected `*colors.Color`
field of the configuration, or `none` for the `default` branch. -/
def levelColorConfig (trimmedLvl : String) (colours : colors.Colours) : Option (Option colors.Color) :=
  if trimmedLvl = level.Trace then some colours.LevelTrace
  else if trimmedLvl = level.Debug then some colours.LevelDebug
  else if trimmedLvl = level.Info then some colours.LevelInfo
  else if trimmedLvl = level.Warn ∨ trimmedLvl = level.Warning then some colours.LevelWarn
  else if trimmedLvl = level.Error then some colours.LevelError
  else if trimmedLvl = level.Fatal then some colours.LevelFatal
  else if trimmedLvl = level.Panic then some colours.LevelPanic
  else none

/-- `formatter.ColorLevel` (Colours-based variant): pad, then select the
color by the whitespace-trimmed text; the `default` branch returns the
padded string as-is. -/
def ColorLevel (noColor : Bool) (lvl : String) (padLevel : Bool) (padAmount : Int)
    (padSide : String) (colours : colors.Colours) : String :=
  let padded := padOf lvl padLevel padAmount padSide
  match levelColorConfig (goTrimSpace padded) colours with
  | none => padded
  | some colorConfig => colors.ApplyColor noColor colorConfig padded

/-- `formatter.LogLine` (Colours-based variant).  `DisableColors` is present
in the source but never read by `Format` (colors are disabled through the
process-wide `color.NoColor` flag). -/
structure LogLine where
  DisableColors : Bool
  TimestampFormat : TSFormat
  PadLevel : Bool
  PadAmount : Int
  PadSide : String
  MsgSeparator : String
  Colours : colors.Colours

/-- `logrus.Level` (the seven levels logrus defines). -/
inductive LogrusLevel where
  | trace
  | debug
  | info
  | warn
  | error
  | fatal
  | panic
deriving DecidableEq, Repr

/-- `logrus.Level.String()`: note logrus renders its warn level as
`"warning"`. -/
def LogrusLevel.str : LogrusLevel → String
  | .trace => "trace"
  | .debug => "debug"
  | .info => "info"
  | .warn => "warning"
  | .error => "error"
  | .fatal => "fatal"
  | .panic => "panic"

/-- `logrus.Entry` as consumed by `LogLine.Format`.  `data` is the contents
of the `entry.Data` Go map *in iteration order*: two `data` lists that are
permutations of each other denote the same map.  A valid entry has a
non-nil `Caller` whenever `reportCaller` is set, so the caller pair is
carried directly. -/
structure Entry where
  time : GoTime
  level : LogrusLevel
  message : String
  reportCaller : Bool
  callerFunction : String
  callerLine : Nat
  data : List (String × String)

/-- The `key={value}` rendering of one logrus data entry. -/
def renderData (noColor : Bool) (colours : colors.Colours) (kv : String × String) : String :=
  FormatAttrKey noColor kv.1 colours ++ "=\x7b" ++ FormatAttrValue noColor kv.2 colours ++ "\x7d"

/-- `(*LogLine).Format`: the full line assembly.  Returns the bytes and the
error value, which the source always sets to `nil` (= `none`). -/
def Format (noColor : Bool) (f : LogLine) (entry : Entry) : String × Option String :=
  let timestamp := FormatTimestamp noColor
    (goTimeRender f.TimestampFormat.ToTimeFormat entry.time) f.Colours
  let lvl := ColorLevel noColor (goToUpper entry.level.str)
    f.PadLevel f.PadAmount f.PadSide f.Colours
  let body :=
    timestamp ++ " " ++ lvl ++
    (if entry.reportCaller then
       FormatCaller noColor entry.callerFunction entry.callerLine f.Colours
     else "") ++
    (if entry.message ≠ "" then
       FormatArrow noColor f.Colours ++ FormatMessage noColor entry.message f.Colours
     else "") ++
    (if entry.data.length > 0 then
       f.MsgSeparator ++ (attrLoop (renderData noColor f.Colours) entry.data true).1
     else "")
  (body ++ "\n", none)

end fmtc

/-! ## The hardcoded-color formatter (the one-argument `FormatTimestamp`
etc. and the four-argument `ColorLevel`), used by `SLogHandler`. -/

namespace fmth

/-- `fatih/color`'s `XxxString` helpers: wrap in a single SGR attribute
unless `NoColor` is set. -/
def colorString (noColor : Bool) (code : Nat) (s : String) : String :=
  colors.colorSprint noColor [code] s

/-- `formatter.FormatTimestamp` (hardcoded variant): `color.HiBlackString`. -/
def FormatTimestamp (noColor : Bool) (timestamp : String) : String :=
  colorString noColor colors.FgHiBlack timestamp

/-- `formatter.FormatMessage` (hardcoded variant): `color.GreenString`. -/
def FormatMessage (noColor : Bool) (message : String) : String :=
  colorString noColor colors.FgGreen message

/-- `formatter.FormatArrow` (hardcoded variant): `color.CyanString(" ▶ ")`. -/
def FormatArrow (noColor : Bool) : String :=
  colorString noColor colors.FgCyan " ▶ "

/-- `formatter.FormatCaller` (hardcoded variant). -/
def FormatCaller (noColor : Bool) (function : String) (line : Nat) : String :=
  " [" ++ colorString noColor colors.FgHiYellow function ++ ":" ++
    colorString noColor colors.FgYellow (natStr line) ++ "]"

/-- `formatter.FormatAttrKey` (hardcoded variant): `color.YellowString`. -/
def FormatAttrKey (noColor : Bool) (key : String) : String :=
  colorString noColor colors.FgYellow key

/-- `formatter.FormatAttrValue` (hardcoded variant): `color.HiYellowString`. -/
def FormatAttrValue (noColor : Bool) (value : String) : String :=
  colorString noColor colors.FgHiYellow value

/-- The `switch` of the four-argument `ColorLevel`: the hardcoded
`fatih/color` attribute for the trimmed level text, `none` when no case
matches (the string is then left as-is). -/
def hardLevelCode (trimmedLvl : String) : Option Nat :=
  if trimmedLvl = level.Trace then some colors.FgHiMagenta
  else if trimmedLvl = level.Debug then some colors.FgHiCyan
  else if trimmedLvl = level.Info then some colors.FgHiGreen
  else if trimmedLvl = level.Warn ∨ trimmedLvl = level.Warning then some colors.FgHiYellow
  else if trimmedLvl = level.Error then some colors.FgRed
  else if trimmedLvl = level.Fatal then some colors.FgHiRed
  else if trimmedLvl = level.Panic then some colors.FgHiWhite
  else none

/-- `formatter.ColorLevel` (four-argument hardcoded variant): pad, then
colorize the padded string by its trimmed text; unmatched text is returned
unchanged (padding kept). -/
def ColorLevel (noColor : Bool) (lvl : String) (padLevel : Bool) (padAmount : Int)
    (padSide : String) : String :=
  let padded := fmtc.padOf lvl padLevel padAmount padSide
  match hardLevelCode (goTrimSpace padded) with
  | none => padded
  | some code => colorString noColor code padded

end fmth

/-! ## Package `logger`: the slog handler (`SLogHandler`) and the slog
level conversions.  `slog.Level` is an integer (`Debug = -4`, `Info = 0`,
`Warn = 4`, `Error = 8`).  A `slog.Attr` is carried as its key together
with `Value.String()`. -/

namespace logger

/-- `options.ZyLog`, restricted to the fields the handler reads. -/
structure ZyLog where
  Level : String
  ReportCaller : Bool
  TimestampFormat : TSFormat
  PadLevel : Bool
  PadAmount : Int
  PadSide : String
  MsgSeparator : String
deriving DecidableEq, Repr

/-- `logger.SLogHandler`.  The output writer is irrelevant to the bytes
produced, so it is carried as an opaque tag. -/
structure SLogHandler where
  opts : ZyLog
  writer : Nat
  attrs : List (String × String)
  groups : List String
deriving DecidableEq, Repr

/-- A `slog.Record` as consumed by `Handle`: time, numeric level, message,
the caller frame resolved from `r.PC` (`pc = 0` means no caller), and the
record's ordered attribute list. -/
structure SRecord where
  time : GoTime
  level : Int
  message : String
  pc : Nat
  callerFunction : String
  callerLine : Nat
  attrs : List (String × String)

/-- `slogLevelToString`: bucket a numeric slog level into a zylog level
string. -/
def slogLevelToString (lvl : Int) : String :=
  if lvl < -4 then level.Trace
  else if lvl < 0 then level.Debug
  else if lvl < 4 then level.Info
  else if lvl < 8 then level.Warn
  else if lvl < 12 then level.Error
  else if lvl < 16 then level.Fatal
  else level.Panic

/-- `parseSlogLevel`: map a level name (lower-cased first) to a numeric
slog level; unrecognized names default to Info (0). -/
def parseSlogLevel (levelStr : String) : Int :=
  let l := goToLower levelStr
  if l = "trace" then -5
  else if l = "debug" then -4
  else if l = "info" then 0
  else if l = "warn" ∨ l = "warning" then 4
  else if l = "error" then 8
  else if l = "fatal" then 12
  else if l = "panic" then 16
  else 0

/-- `(*SLogHandler).Enabled`. -/
def Enabled (h : SLogHandler) (lvl : Int) : Bool :=
  lvl ≥ parseSlogLevel h.opts.Level

/-- `(*SLogHandler).appendAttr`: render one attribute as `key={value}`,
prefixing the key with the dot-joined group path. -/
def appendAttr (noColor : Bool) (h : SLogHandler) (attr : String × String) : String :=
  let pfx := if h.groups.length > 0 then goJoin "." h.groups ++ "." else ""
  fmth.FormatAttrKey noColor (pfx ++ attr.1) ++ "=\x7b" ++
    fmth.FormatAttrValue noColor attr.2 ++ "\x7d"

/-- `(*SLogHandler).Handle`: builds the formatted line.  The source then
writes the bytes to `h.writer` and returns that write's error; the bytes
built are returned here.  The two attribute loops (handler attributes, then
record attributes) share one `first` flag. -/
def Handle (noColor : Bool) (h : SLogHandler) (r : SRecord) : String :=
  let buf0 := fmth.FormatTimestamp noColor
    (goTimeRender h.opts.TimestampFormat.ToTimeFormat r.time) ++ " "
  let buf1 := buf0 ++ fmth.ColorLevel noColor (slogLevelToString r.level)
    h.opts.PadLevel h.opts.PadAmount h.opts.PadSide
  let buf2 := buf1 ++
    (if h.opts.ReportCaller ∧ r.pc ≠ 0 then
       fmth.FormatCaller noColor r.callerFunction r.callerLine
     else "")
  let buf3 := buf2 ++
    (if r.message ≠ "" then fmth.FormatArrow noColor ++ fmth.FormatMessage noColor r.message
     else "")
  let hasAttrs := h.attrs.length > 0 ∨ r.attrs.length > 0
  let handlerPart := attrLoop (appendAttr noColor h) h.attrs true
  let recordPart := attrLoop (appendAttr noColor h) r.attrs handlerPart.2
  let buf4 := buf3 ++
    (if hasAttrs then h.opts.MsgSeparator ++ handlerPart.1 ++ recordPart.1 else "")
  buf4 ++ "\n"

/-- `(*SLogHandler).WithAttrs`: a fresh handler whose attribute slice is a
copy of the receiver's attributes followed by the new ones (the source
allocates `newAttrs` and fills it with two `copy` calls). -/
def WithAttrs (h : SLogHandler) (attrs : List (String × String)) : SLogHandler :=
  { opts := h.opts
    writer := h.writer
    attrs := h.attrs ++ attrs
    groups := h.groups }

/-- `(*SLogHandler).WithGroup`: the receiver itself for the empty name,
otherwise a fresh handler with the name appended to a copy of the groups. -/
def WithGroup (h : SLogHandler) (name : String) : SLogHandler :=
  if name = "" then h
  else
    { opts := h.opts
      writer := h.writer
      attrs := h.attrs
      groups := h.groups ++ [name] }

end logger

/-! ## Lemmas about the attribute loop. -/

theorem attrLoop_cons (r : String × String → String) (a : String × String)
    (rest : List (String × String)) (b : Bool) :
    attrLoop r (a :: rest) b =
      (((if !b then ", " else "") ++ r a) ++ (attrLoop r rest false).1,
        (attrLoop r rest false).2) := rfl

theorem attrLoop_snd (r : String × String → String) (l : List (String × String)) (b : Bool) :
    (attrLoop r l b).2 = if l.isEmpty then b else false := by
  induction l generalizing b with
  | nil => rfl
  | cons a rest ih => rw [attrLoop_cons]; simp [ih]

theorem goJoin_cons (sep x : String) (xs : List String) :
    goJoin sep (x :: xs) = x ++ (if xs.isEmpty then "" else sep ++ goJoin sep xs) := by
  cases xs with
  | nil => simp [goJoin]
  | cons y ys => simp [goJoin, String.append_assoc]

theorem attrLoop_fst_false (r : String × String → String) (l : List (String × String)) :
    (attrLoop r l false).1 = if l.isEmpty then "" else ", " ++ goJoin ", " (l.map r) := by
  induction l with
  | nil => rfl
  | cons a rest ih =>
    rw [attrLoop_cons]
    simp only [ih, List.map_cons, goJoin_cons, List.isEmpty_cons, Bool.not_false, if_true,
      List.isEmpty_eq_true, List.map_eq_nil_iff]
    by_cases h : rest = []
    · subst h; simp
    · simp [h, String.append_assoc]

theorem attrLoop_fst_true (r : String × String → String) (l : List (String × String)) :
    (attrLoop r l true).1 = goJoin ", " (l.map r) := by
  cases l with
  | nil => rfl
  | cons a rest =>
    rw [attrLoop_cons]
    simp only [attrLoop_fst_false, List.map_cons, goJoin_cons, Bool.not_true, if_false,
      List.isEmpty_eq_true, List.map_eq_nil_iff]
    by_cases h : rest = []
    · subst h; simp
    · simp [h]

theorem attrLoop_fst_append (r : String × String → String)
    (l1 l2 : List (String × String)) (b : Bool) :
    (attrLoop r (l1 ++ l2) b).1 =
      (attrLoop r l1 b).1 ++ (attrLoop r l2 (attrLoop r l1 b).2).1 := by
  induction l1 generalizing b with
  | nil => simp [attrLoop]
  | cons a rest ih =>
    rw [List.cons_append, attrLoop_cons, attrLoop_cons]
    rw [ih]
    simp [String.append_assoc]

/-- The two sequential attribute loops of `Handle` (sharing one `first`
flag) render the concatenated list joined by ", ". -/
theorem attrLoop_two_loops (r : String × String → String)
    (l1 l2 : List (String × String)) :
    (attrLoop r l1 true).1 ++ (attrLoop r l2 (attrLoop r l1 true).2).1 =
      goJoin ", " ((l1 ++ l2).map r) := by
  rw [← attrLoop_fst_append, attrLoop_fst_true]

/-! ## Lemmas about trimming and padding. -/

theorem isGoSpace_space : isGoSpace ' ' = true := by decide

theorem trimChars_space_left (n : Nat) (l : List Char) :
    trimChars (List.replicate n ' ' ++ l) = trimChars l := by
  unfold trimChars
  rw [List.dropWhile_append_of_pos]
  intro a ha
  rw [List.eq_of_mem_replicate ha]
  decide

theorem trimChars_space_right (n : Nat) (l : List Char) :
    trimChars (l ++ List.replicate n ' ') = trimChars l := by
  unfold trimChars
  rw [List.dropWhile_append]
  by_cases h : (l.dropWhile isGoSpace).isEmpty
  · rw [if_pos h]
    rw [List.isEmpty_iff] at h
    rw [h, List.dropWhile_replicate, if_pos isGoSpace_space]
  · rw [if_neg h]
    rw [List.reverse_append, List.reverse_replicate, List.dropWhile_append_of_pos]
    intro a ha
    rw [List.eq_of_mem_replicate ha]
    decide

/-- Trimming after the padding step recovers trimming of the original
level text: padding only ever adds spaces. -/
theorem goTrimSpace_padOf (lvl : String) (p : Bool) (a : Int) (s : String) :
    goTrimSpace (fmtc.padOf lvl p a s) = goTrimSpace lvl := by
  unfold fmtc.padOf goTrimSpace goPadLeft goPadRight
  split
  · split
    · rw [String.data_append]
      exact congrArg String.mk (trimChars_space_left _ _)
    · rw [String.data_append]
      exact congrArg String.mk (trimChars_space_right _ _)
  · rfl

/-- `ColorLevel` selects its color by the trimmed level text alone
(padding does not change the selection). -/
theorem ColorLevel_by_trimmed (noColor : Bool) (lvl : String) (p : Bool) (a : Int)
    (side : String) (c : colors.Colours) :
    fmtc.ColorLevel noColor lvl p a side c =
      match fmtc.levelColorConfig (goTrimSpace lvl) c with
      | none => fmtc.padOf lvl p a side
      | some cfg => colors.ApplyColor noColor cfg (fmtc.padOf lvl p a side) := by
  simp only [fmtc.ColorLevel]
  rw [goTrimSpace_padOf]

/-! ## Claim theorems. -/

/-- C2: for every configuration and record, `LogLine.Format` returns a nil
error and a byte sequence obtained by appending exactly one newline, and
`SLogHandler.Handle` builds a line ending in exactly one appended newline;
this holds with no restriction on caller, message or attributes (absent or
empty included). -/
theorem claim2_format_never_fails_ends_newline :
    ∀ (noColor : Bool) (f : fmtc.LogLine) (e : fmtc.Entry)
      (h : logger.SLogHandler) (r : logger.SRecord),
      (∃ p, fmtc.Format noColor f e = (p ++ "\n", none)) ∧
      (∃ q, logger.Handle noColor h r = q ++ "\n") := by
  intro nc f e h r
  exact ⟨⟨_, rfl⟩, ⟨_, rfl⟩⟩

/-- C5: the level colorizer picks its color by matching the
whitespace-trimmed (pre-padding) level text against the fixed enumeration,
and any level text outside the enumeration comes back with padding applied
but no color applied. -/
theorem claim5_unknown_level_uncolored :
    ∀ (noColor : Bool) (lvl : String) (p : Bool) (a : Int) (side : String)
      (c : colors.Colours),
      (fmtc.ColorLevel noColor lvl p a side c =
        match fmtc.levelColorConfig (goTrimSpace lvl) c with
        | none => fmtc.padOf lvl p a side
        | some cfg => colors.ApplyColor noColor cfg (fmtc.padOf lvl p a side)) ∧
      (fmtc.levelColorConfig (goTrimSpace lvl) c = none →
        fmtc.ColorLevel noColor lvl p a side c = fmtc.padOf lvl p a side) := by
  intro nc lvl p a side c
  refine ⟨ColorLevel_by_trimmed nc lvl p a side c, fun hnone => ?_⟩
  rw [ColorLevel_by_trimmed, hnone]

/-- C5 witness: an unrecognized level string ("BLAH") is returned padded
but uncolored. -/
theorem claim5_witness :
    fmtc.levelColorConfig (goTrimSpace "BLAH") colors.defaultColours = none ∧
    fmtc.ColorLevel false "BLAH" true 7 "left" colors.defaultColours =
      fmtc.padOf "BLAH" true 7 "left" :=
  ⟨by decide,
   (claim5_unknown_level_uncolored false "BLAH" true 7 "left" colors.defaultColours).2
     (by decide)⟩

/-- C6: with padding enabled and width > 0, side "left" space-fills on the
left (right-aligns) and any other side space-fills on the right; in
particular `"INFO"` padded to width 7 on the left and colorized with the
default colors renders the 7-character visible text of 3 spaces followed
by "INFO". -/
theorem claim6_padding_alignment :
    (∀ (lvl : String) (w : Int) (side : String), w > 0 →
      (side = "left" →
        fmtc.padOf lvl true w side =
          String.mk (List.replicate (w.toNat - lvl.data.length) ' ') ++ lvl) ∧
      (side ≠ "left" →
        fmtc.padOf lvl true w side =
          lvl ++ String.mk (List.replicate (w.toNat - lvl.data.length) ' '))) ∧
    fmtc.ColorLevel false "INFO" true 7 "left" colors.defaultColours =
      colors.colorSprint false [colors.FgHiGreen] ("   " ++ "INFO") ∧
    ("   " ++ "INFO").data.length = 7 := by
  refine ⟨?_, by decide, by decide⟩
  intro lvl w side hw
  constructor
  · intro hs
    simp [fmtc.padOf, hw, hs, goPadLeft]
  · intro hs
    simp [fmtc.padOf, hw, hs, goPadRight]

/-- C6 witness: the padding branches at width 7, side "left". -/
theorem claim6_witness :
    fmtc.padOf "INFO" true 7 "left" =
      String.mk (List.replicate ((7 : Int).toNat - "INFO".data.length) ' ') ++ "INFO" :=
  (claim6_padding_alignment.1 "INFO" 7 "left" (by decide)).1 rfl

/-- C8: for every padding configuration and every color configuration,
the level colorizer selects the same `Color` field (`LevelWarn`) for both
"WARN" and "WARNING", in the Colours-based variant and in the hardcoded
variant alike. -/
theorem claim8_warn_warning_same_spec :
    ∀ (noColor : Bool) (p : Bool) (a : Int) (side : String) (c : colors.Colours),
      fmtc.levelColorConfig (goTrimSpace (fmtc.padOf "WARN" p a side)) c =
        some c.LevelWarn ∧
      fmtc.levelColorConfig (goTrimSpace (fmtc.padOf "WARNING" p a side)) c =
        some c.LevelWarn ∧
      fmtc.ColorLevel noColor "WARN" p a side c =
        colors.ApplyColor noColor c.LevelWarn (fmtc.padOf "WARN" p a side) ∧
      fmtc.ColorLevel noColor "WARNING" p a side c =
        colors.ApplyColor noColor c.LevelWarn (fmtc.padOf "WARNING" p a side) ∧
      fmth.hardLevelCode (goTrimSpace (fmtc.padOf "WARN" p a side)) =
        fmth.hardLevelCode (goTrimSpace (fmtc.padOf "WARNING" p a side)) := by
  intro nc p a side c
  have h1 : goTrimSpace "WARN" = "WARN" := by decide
  have h2 : goTrimSpace "WARNING" = "WARNING" := by decide
  have e1 : fmtc.levelColorConfig "WARN" c = some c.LevelWarn := by
    simp [fmtc.levelColorConfig, level.Trace, level.Debug, level.Info, level.Warn,
      level.Warning, level.Error, level.Fatal, level.Panic]
  have e2 : fmtc.levelColorConfig "WARNING" c = some c.LevelWarn := by
    simp [fmtc.levelColorConfig, level.Trace, level.Debug, level.Info, level.Warn,
      level.Warning, level.Error, level.Fatal, level.Panic]
  refine ⟨?_, ?_, ?_, ?_, ?_⟩
  · rw [goTrimSpace_padOf, h1, e1]
  · rw [goTrimSpace_padOf, h2, e2]
  · rw [ColorLevel_by_trimmed, h1, e1]
  · rw [ColorLevel_by_trimmed, h2, e2]
  · rw [goTrimSpace_padOf, goTrimSpace_padOf, h1, h2]
    decide

/-- C10: `WithAttrs` yields a handler carrying the receiver's attributes
followed by the new ones with all other fields preserved; `WithGroup` with
a non-empty name appends the name to the groups with all other fields
preserved; `WithGroup ""` returns the receiver unchanged. -/
theorem claim10_withattrs_withgroup_frame :
    ∀ (h : logger.SLogHandler) (attrs : List (String × String)) (name : String),
      (logger.WithAttrs h attrs).attrs = h.attrs ++ attrs ∧
      (logger.WithAttrs h attrs).groups = h.groups ∧
      (logger.WithAttrs h attrs).opts = h.opts ∧
      (logger.WithAttrs h attrs).writer = h.writer ∧
      (name ≠ "" →
        (logger.WithGroup h name).groups = h.groups ++ [name] ∧
        (logger.WithGroup h name).attrs = h.attrs ∧
        (logger.WithGroup h name).opts = h.opts ∧
        (logger.WithGroup h name).writer = h.writer) ∧
      logger.WithGroup h "" = h := by
  intro h attrs name
  refine ⟨rfl, rfl, rfl, rfl, fun hn => ?_, by simp [logger.WithGroup]⟩
  simp [logger.WithGroup, hn]

/-- C10 witness: appending a group named "db" to a concrete handler. -/
theorem claim10_witness :
    (logger.WithGroup
      ⟨⟨"info", false, TSFormat.SimpleTimestamp, false, 0, "left", ": "⟩,
        0, [("k", "v")], ["g"]⟩ "db").groups = ["g"] ++ ["db"] :=
  ((claim10_withattrs_withgroup_frame
    ⟨⟨"info", false, TSFormat.SimpleTimestamp, false, 0, "left", ": "⟩,
      0, [("k", "v")], ["g"]⟩ [] "db").2.2.2.2.1 (by decide)).1

/-- The seven lower-case level names of the claim's enumeration. -/
def levelNamesLower : List String :=
  ["trace", "debug", "info", "warn", "error", "fatal", "panic"]

/-- C9 counterexample: "DEBUG" is outside the claimed lower-case
enumeration, yet `parseSlogLevel` lower-cases its input first and returns
the Debug level (-4), not the Info level (0). -/
theorem claim9_counterexample :
    "DEBUG" ∉ levelNamesLower ∧ logger.parseSlogLevel "DEBUG" = -4 ∧
    logger.parseSlogLevel "DEBUG" ≠ 0 := by
  refine ⟨by decide, by decide, by decide⟩

/-- C9 (amended): each of the seven level names round-trips through
`parseSlogLevel` and `slogLevelToString` to its upper-case form, "warning"
round-trips to "WARN", and every ASCII string whose *lower-cased* form is
outside the enumeration (and is not "warning") parses to the Info level
(0). -/
theorem claim9_level_roundtrip :
    (∀ name ∈ levelNamesLower,
      logger.slogLevelToString (logger.parseSlogLevel name) = goToUpper name) ∧
    logger.slogLevelToString (logger.parseSlogLevel "warning") = "WARN" ∧
    (∀ s : String, (∀ c ∈ s.data, c.toNat < 128) →
      goToLower s ∉ levelNamesLower → goToLower s ≠ "warning" →
      logger.parseSlogLevel s = 0) := by
  refine ⟨by decide, by decide, ?_⟩
  intro s _hascii h1 h2
  unfold logger.parseSlogLevel
  simp only [levelNamesLower, List.mem_cons, List.not_mem_nil, or_false, not_or] at h1
  obtain ⟨n1, n2, n3, n4, n5, n6, n7⟩ := h1
  simp [n1, n2, n3, n4, n5, n6, n7, h2]

/-- C9 witness: "warn" round-trips to "WARN" and the unknown name "bogus"
parses to the Info level. -/
theorem claim9_witness :
    logger.slogLevelToString (logger.parseSlogLevel "warn") = goToUpper "warn" ∧
    logger.parseSlogLevel "bogus" = 0 :=
  ⟨claim9_level_roundtrip.1 "warn" (by decide),
   claim9_level_roundtrip.2.2 "bogus" (by decide) (by decide) (by decide)⟩

/-- C4 counterexample: with colors globally enabled (`noColor = false`),
a configuration whose `Timestamp` override is nil makes `FormatTimestamp`
return the text unchanged, while applying the element's built-in default
`ColorSpec` would change it. -/
theorem claim4_counterexample :
    fmtc.FormatTimestamp false "20251107.143045"
      { colors.defaultColours with Timestamp := none } = "20251107.143045" ∧
    colors.ApplyColor false colors.defaultColours.Timestamp "20251107.143045" ≠
      "20251107.143045" := by
  refine ⟨by decide, by decide⟩

/-- C4 (amended): when the per-element color override is nil, the text is
returned *unchanged* (no built-in default is substituted at
color-application time); the built-in defaults take effect only when the
configuration actually carries them, as the default configuration
(`colors.Default()`) does for every element. -/
theorem claim4_nil_override_passthrough :
    ∀ (s : String) (c : colors.Colours),
      (c.Timestamp = none → fmtc.FormatTimestamp false s c = s) ∧
      (c.Message = none → fmtc.FormatMessage false s c = s) ∧
      (c.AttrKey = none → fmtc.FormatAttrKey false s c = s) ∧
      (c.AttrValue = none → fmtc.FormatAttrValue false s c = s) ∧
      colors.ApplyColor false none s = s ∧
      fmtc.FormatTimestamp false s colors.defaultColours =
        colors.colorSprint false [colors.FgHiBlack] s := by
  intro s c
  refine ⟨fun h => ?_, fun h => ?_, fun h => ?_, fun h => ?_, rfl, rfl⟩
  · simp [fmtc.FormatTimestamp, h, colors.ApplyColor]
  · simp [fmtc.FormatMessage, h, colors.ApplyColor]
  · simp [fmtc.FormatAttrKey, h, colors.ApplyColor]
  · simp [fmtc.FormatAttrValue, h, colors.ApplyColor]

/-- C4 witness: a nil `Timestamp` override passes the text through. -/
theorem claim4_witness :
    fmtc.FormatTimestamp false "x" { colors.defaultColours with Timestamp := none } = "x" :=
  (claim4_nil_override_passthrough "x" { colors.defaultColours with Timestamp := none }).1 rfl

/-! ## Absence of the arrow glyph. -/

/-- The string contains no occurrence of the arrow glyph's character. -/
def arrowFree (s : String) : Prop := '▶' ∉ s.data

instance (s : String) : Decidable (arrowFree s) := by
  unfold arrowFree; infer_instance

theorem arrowFree_append {s t : String} (hs : arrowFree s) (ht : arrowFree t) :
    arrowFree (s ++ t) := by
  unfold arrowFree at *
  rw [String.data_append]
  simp only [List.mem_append]
  tauto

theorem digitChar_ne_arrow (n : Nat) : digitChar n ≠ '▶' := by
  have h : n % 10 = 0 ∨ n % 10 = 1 ∨ n % 10 = 2 ∨ n % 10 = 3 ∨ n % 10 = 4 ∨
      n % 10 = 5 ∨ n % 10 = 6 ∨ n % 10 = 7 ∨ n % 10 = 8 ∨ n % 10 = 9 := by omega
  unfold digitChar
  rcases h with h | h | h | h | h | h | h | h | h | h <;> rw [h] <;> decide

theorem arrow_not_mem_natCharsAux (fuel n : Nat) : '▶' ∉ natCharsAux fuel n := by
  induction fuel generalizing n with
  | zero => simp [natCharsAux]
  | succ fuel ih =>
    unfold natCharsAux
    split
    · intro hmem
      rw [List.mem_singleton] at hmem
      exact digitChar_ne_arrow n hmem.symm
    · intro hmem
      rcases List.mem_append.mp hmem with h | h
      · exact ih (n / 10) h
      · rw [List.mem_singleton] at h
        exact digitChar_ne_arrow (n % 10) h.symm

theorem arrowFree_natStr (n : Nat) : arrowFree (natStr n) :=
  arrow_not_mem_natCharsAux (n + 1) n

theorem arrowFree_mk_replicate {c : Char} (n : Nat) (hc : c ≠ '▶') :
    arrowFree (String.mk (List.replicate n c)) := by
  unfold arrowFree
  intro hmem
  exact hc (List.eq_of_mem_replicate hmem).symm

theorem arrowFree_zeroPad (w n : Nat) : arrowFree (zeroPad w n) := by
  unfold arrowFree zeroPad
  intro hmem
  rcases List.mem_append.mp hmem with h | h
  · exact absurd (List.eq_of_mem_replicate h) (by decide)
  · exact arrow_not_mem_natCharsAux (n + 1) n h

theorem arrowFree_empty : arrowFree "" := by
  unfold arrowFree
  simp

theorem arrowFree_clockStr (t : GoTime) : arrowFree (clockStr t) := by
  unfold clockStr
  exact arrowFree_append (arrowFree_append (arrowFree_append (arrowFree_append
    (arrowFree_zeroPad 2 t.hour) (by decide)) (arrowFree_zeroPad 2 t.minute))
    (by decide)) (arrowFree_zeroPad 2 t.second)

theorem arrowFree_goTimeRender (layout : String) (t : GoTime) :
    arrowFree (goTimeRender layout t) := by
  unfold goTimeRender
  split
  · exact arrowFree_append (arrowFree_append (arrowFree_append (arrowFree_append
      (arrowFree_append (arrowFree_append (arrowFree_zeroPad 4 t.year) (by decide))
        (arrowFree_zeroPad 2 t.month)) (by decide)) (arrowFree_zeroPad 2 t.day))
      (by decide)) (arrowFree_clockStr t)
  · split
    · exact arrowFree_clockStr t
    · split
      · refine arrowFree_append ?_ ?_
        · exact arrowFree_append (arrowFree_append (arrowFree_append (arrowFree_append
            (arrowFree_append (arrowFree_append (arrowFree_zeroPad 4 t.year)
              (by decide)) (arrowFree_zeroPad 2 t.month)) (by decide))
            (arrowFree_zeroPad 2 t.day)) (by decide)) (arrowFree_clockStr t)
        · split
          · decide
          · refine arrowFree_append (arrowFree_append (arrowFree_append ?_
              (arrowFree_zeroPad 2 _)) (by decide)) (arrowFree_zeroPad 2 _)
            split <;> decide
      · exact arrowFree_append (arrowFree_append (arrowFree_append (arrowFree_append
          (arrowFree_append (arrowFree_append (arrowFree_zeroPad 4 t.year)
            (arrowFree_zeroPad 2 t.month)) (arrowFree_zeroPad 2 t.day)) (by decide))
          (arrowFree_zeroPad 2 t.hour)) (arrowFree_zeroPad 2 t.minute))
          (arrowFree_zeroPad 2 t.second)

theorem arrowFree_goJoin {sep : String} {l : List String} (hsep : arrowFree sep)
    (hl : ∀ x ∈ l, arrowFree x) : arrowFree (goJoin sep l) := by
  induction l with
  | nil => exact arrowFree_empty
  | cons x xs ih =>
    rw [goJoin_cons]
    refine arrowFree_append (hl x (List.mem_cons_self x xs)) ?_
    split
    · exact arrowFree_empty
    · exact arrowFree_append hsep (ih fun y hy => hl y (List.mem_cons_of_mem x hy))

theorem arrowFree_colorSprint (noColor : Bool) (attrs : List Nat) {s : String}
    (hs : arrowFree s) : arrowFree (colors.colorSprint noColor attrs s) := by
  unfold colors.colorSprint
  split
  · exact hs
  · refine arrowFree_append (arrowFree_append (arrowFree_append (arrowFree_append
      (by decide) (arrowFree_goJoin (by decide) ?_)) (by decide)) hs) (by decide)
    intro x hx
    rcases List.mem_map.mp hx with ⟨n, _, hn⟩
    exact hn ▸ arrowFree_natStr n

theorem arrowFree_ApplyColor (noColor : Bool) (oc : Option colors.Color) {s : String}
    (hs : arrowFree s) : arrowFree (colors.ApplyColor noColor oc s) := by
  unfold colors.ApplyColor
  cases oc with
  | none => exact hs
  | some c =>
    simp only
    repeat' split
    all_goals first
      | exact hs
      | exact arrowFree_colorSprint noColor _ hs

theorem arrowFree_padOf {lvl : String} (p : Bool) (a : Int) (side : String)
    (hlvl : arrowFree lvl) : arrowFree (fmtc.padOf lvl p a side) := by
  unfold fmtc.padOf goPadLeft goPadRight
  split
  · split
    · exact arrowFree_append (arrowFree_mk_replicate _ (by decide)) hlvl
    · exact arrowFree_append hlvl (arrowFree_mk_replicate _ (by decide))
  · exact hlvl

theorem arrowFree_ColorLevel (noColor : Bool) {lvl : String} (p : Bool) (a : Int)
    (side : String) (c : colors.Colours) (hlvl : arrowFree lvl) :
    arrowFree (fmtc.ColorLevel noColor lvl p a side c) := by
  rw [ColorLevel_by_trimmed]
  cases fmtc.levelColorConfig (goTrimSpace lvl) c with
  | none => exact arrowFree_padOf p a side hlvl
  | some cfg => exact arrowFree_ApplyColor noColor cfg (arrowFree_padOf p a side hlvl)

theorem arrowFree_levelUpper (lv : fmtc.LogrusLevel) : arrowFree (goToUpper lv.str) := by
  cases lv <;> decide

theorem arrowFree_FormatCaller (noColor : Bool) {fn : String} (line : Nat)
    (c : colors.Colours) (hfn : arrowFree fn) :
    arrowFree (fmtc.FormatCaller noColor fn line c) := by
  unfold fmtc.FormatCaller
  exact arrowFree_append (arrowFree_append (arrowFree_append (arrowFree_append
    (by decide) (arrowFree_ApplyColor noColor _ hfn)) (by decide))
    (arrowFree_ApplyColor noColor _ (arrowFree_natStr line))) (by decide)

theorem arrowFree_renderData (noColor : Bool) (c : colors.Colours)
    {kv : String × String} (hk : arrowFree kv.1) (hv : arrowFree kv.2) :
    arrowFree (fmtc.renderData noColor c kv) := by
  unfold fmtc.renderData fmtc.FormatAttrKey fmtc.FormatAttrValue
  exact arrowFree_append (arrowFree_append (arrowFree_append
    (arrowFree_ApplyColor noColor _ hk) (by decide))
    (arrowFree_ApplyColor noColor _ hv)) (by decide)

theorem arrowFree_FormatTimestamp (noColor : Bool) {ts : String} (c : colors.Colours)
    (h : arrowFree ts) : arrowFree (fmtc.FormatTimestamp noColor ts c) :=
  arrowFree_ApplyColor noColor c.Timestamp h

/-- C7: with an empty message, `LogLine.Format` joins the remaining
segments directly — no arrow glyph, no leftover spacing — and the output
is arrow-glyph-free whenever the record's own text fields are; with a
non-empty message the arrow-plus-message segment is emitted.  The arrow
segment thus appears if and only if the message is non-empty. -/
theorem claim7_empty_message_no_arrow :
    ∀ (noColor : Bool) (f : fmtc.LogLine) (e : fmtc.Entry),
      (e.message = "" →
        ((fmtc.Format noColor f e).1 =
          fmtc.FormatTimestamp noColor
              (goTimeRender f.TimestampFormat.ToTimeFormat e.time) f.Colours ++ " " ++
            fmtc.ColorLevel noColor (goToUpper e.level.str)
              f.PadLevel f.PadAmount f.PadSide f.Colours ++
            (if e.reportCaller then
              fmtc.FormatCaller noColor e.callerFunction e.callerLine f.Colours
             else "") ++
            (if e.data.length > 0 then
              f.MsgSeparator ++
                goJoin ", " (e.data.map (fmtc.renderData noColor f.Colours))
             else "") ++ "\n") ∧
        (arrowFree f.MsgSeparator → arrowFree e.callerFunction →
          (∀ kv ∈ e.data, arrowFree kv.1 ∧ arrowFree kv.2) →
          arrowFree (fmtc.Format noColor f e).1)) ∧
      (e.message ≠ "" →
        (fmtc.Format noColor f e).1 =
          fmtc.FormatTimestamp noColor
              (goTimeRender f.TimestampFormat.ToTimeFormat e.time) f.Colours ++ " " ++
            fmtc.ColorLevel noColor (goToUpper e.level.str)
              f.PadLevel f.PadAmount f.PadSide f.Colours ++
            (if e.reportCaller then
              fmtc.FormatCaller noColor e.callerFunction e.callerLine f.Colours
             else "") ++
            (fmtc.FormatArrow noColor f.Colours ++
              fmtc.FormatMessage noColor e.message f.Colours) ++
            (if e.data.length > 0 then
              f.MsgSeparator ++
                goJoin ", " (e.data.map (fmtc.renderData noColor f.Colours))
             else "") ++ "\n") := by
  intro nc f e
  refine ⟨fun hmsg => ?_, fun hmsg => ?_⟩
  · have hstruct : (fmtc.Format nc f e).1 =
        fmtc.FormatTimestamp nc
            (goTimeRender f.TimestampFormat.ToTimeFormat e.time) f.Colours ++ " " ++
          fmtc.ColorLevel nc (goToUpper e.level.str)
            f.PadLevel f.PadAmount f.PadSide f.Colours ++
          (if e.reportCaller then
            fmtc.FormatCaller nc e.callerFunction e.callerLine f.Colours
           else "") ++
          (if e.data.length > 0 then
            f.MsgSeparator ++ goJoin ", " (e.data.map (fmtc.renderData nc f.Colours))
           else "") ++ "\n" := by
      simp [fmtc.Format, hmsg, attrLoop_fst_true]
    refine ⟨hstruct, fun hsep hcf hdata => ?_⟩
    rw [hstruct]
    refine arrowFree_append (arrowFree_append (arrowFree_append (arrowFree_append
      (arrowFree_append
        (arrowFree_FormatTimestamp nc f.Colours (arrowFree_goTimeRender _ _))
        (by decide))
      (arrowFree_ColorLevel nc _ _ _ _ (arrowFree_levelUpper e.level))) ?_) ?_)
      (by decide)
    · split
      · exact arrowFree_FormatCaller nc e.callerLine f.Colours hcf
      · exact arrowFree_empty
    · split
      · refine arrowFree_append hsep (arrowFree_goJoin (by decide) ?_)
        intro x hx
        rcases List.mem_map.mp hx with ⟨kv, hkv, rfl⟩
        exact arrowFree_renderData nc f.Colours (hdata kv hkv).1 (hdata kv hkv).2
      · exact arrowFree_empty
  · simp [fmtc.Format, hmsg, attrLoop_fst_true]

/-- C7 witness: a concrete empty-message record formats without the arrow
segment and its output contains no arrow glyph. -/
theorem claim7_witness :
    arrowFree (fmtc.Format true
      ⟨false, TSFormat.SimpleTimestamp, false, 5, "left", " || ", colors.defaultColours⟩
      ⟨⟨2025, 11, 7, 14, 30, 45, 0⟩, .info, "", true, "main.run", 42,
        [("k", "v")]⟩).1 :=
  ((claim7_empty_message_no_arrow true
      ⟨false, TSFormat.SimpleTimestamp, false, 5, "left", " || ", colors.defaultColours⟩
      ⟨⟨2025, 11, 7, 14, 30, 45, 0⟩, .info, "", true, "main.run", 42,
        [("k", "v")]⟩).1 rfl).2
    (by decide) (by decide)
    (by intro kv hkv; rw [List.mem_singleton] at hkv; rw [hkv]; exact ⟨by decide, by decide⟩)

/-- C3: `Handle` emits, after the fixed prefix, the attribute trailer: the
configured separator, then the handler's attributes followed by the
record's attributes *in the record's insertion order*, each rendered by
`appendAttr` as `key={value}` and joined by ", "; concretely, record
attributes [("b","2"), ("a","1")] produce the trailer `b={2}, a={1}`. -/
theorem claim3_attr_insertion_order :
    (∀ (noColor : Bool) (h : logger.SLogHandler) (r : logger.SRecord),
      logger.Handle noColor h r =
        fmth.FormatTimestamp noColor
            (goTimeRender h.opts.TimestampFormat.ToTimeFormat r.time) ++ " " ++
          fmth.ColorLevel noColor (logger.slogLevelToString r.level)
            h.opts.PadLevel h.opts.PadAmount h.opts.PadSide ++
          (if h.opts.ReportCaller ∧ r.pc ≠ 0 then
            fmth.FormatCaller noColor r.callerFunction r.callerLine
           else "") ++
          (if r.message ≠ "" then
            fmth.FormatArrow noColor ++ fmth.FormatMessage noColor r.message
           else "") ++
          (if h.attrs.length > 0 ∨ r.attrs.length > 0 then
            h.opts.MsgSeparator ++
              goJoin ", " ((h.attrs ++ r.attrs).map (logger.appendAttr noColor h))
           else "") ++ "\n") ∧
    logger.Handle true
      ⟨⟨"trace", false, TSFormat.SimpleTimestamp, false, 5, "left", ": "⟩, 0, [], []⟩
      ⟨⟨2025, 11, 7, 14, 30, 45, 0⟩, 8, "disk full", 0, "", 0,
        [("b", "2"), ("a", "1")]⟩ =
      "20251107.143045 ERROR ▶ disk full" ++ ": " ++ "b=\x7b2\x7d, a=\x7b1\x7d" ++ "\n" := by
  constructor
  · intro nc h r
    have htrail :
        h.opts.MsgSeparator ++ (attrLoop (logger.appendAttr nc h) h.attrs true).1 ++
            (attrLoop (logger.appendAttr nc h) r.attrs
              (attrLoop (logger.appendAttr nc h) h.attrs true).2).1 =
          h.opts.MsgSeparator ++
            goJoin ", " ((h.attrs ++ r.attrs).map (logger.appendAttr nc h)) := by
      rw [String.append_assoc, attrLoop_two_loops]
    simp only [logger.Handle]
    rw [htrail]
  · decide

/-- C1 counterexample: two entries denoting the same logrus record (their
`Data` lists are permutations of each other, i.e. the same map observed in
two iteration orders) format to different byte sequences, so
`LogLine.Format` is not determined by the record and configuration
alone. -/
theorem claim1_counterexample :
    [("a", "1"), ("b", "2")].Perm [("b", "2"), ("a", "1")] ∧
    fmtc.Format true
      ⟨false, TSFormat.SimpleTimestamp, false, 5, "left", " || ", colors.defaultColours⟩
      ⟨⟨2025, 11, 7, 14, 30, 45, 0⟩, .info, "hello", false, "", 0,
        [("a", "1"), ("b", "2")]⟩ ≠
    fmtc.Format true
      ⟨false, TSFormat.SimpleTimestamp, false, 5, "left", " || ", colors.defaultColours⟩
      ⟨⟨2025, 11, 7, 14, 30, 45, 0⟩, .info, "hello", false, "", 0,
        [("b", "2"), ("a", "1")]⟩ := by
  refine ⟨List.Perm.swap _ _ _, by decide⟩

/-- C1 (amended): `SLogHandler.Handle` consumes ordered attribute lists
and is a function of handler state and record, and `LogLine.Format` is
deterministic exactly up to the iteration order of the `entry.Data` map:
records whose map holds at most one attribute (so the iteration order is
unique) format identically under any iteration order; with two or more
attributes the order, and hence the bytes, may differ. -/
theorem claim1_determinism_amended :
    ∀ (noColor : Bool) (f : fmtc.LogLine) (t : GoTime) (lv : fmtc.LogrusLevel)
      (msg : String) (rc : Bool) (cf : String) (cl : Nat)
      (d1 d2 : List (String × String)),
      d1.Perm d2 → d1.length ≤ 1 →
      fmtc.Format noColor f ⟨t, lv, msg, rc, cf, cl, d1⟩ =
        fmtc.Format noColor f ⟨t, lv, msg, rc, cf, cl, d2⟩ := by
  intro nc f t lv msg rc cf cl d1 d2 hperm hlen
  have : d1 = d2 := by
    match d1, hperm with
    | [], hperm => exact (hperm.nil_eq).symm ▸ rfl
    | [x], hperm => exact ((List.perm_singleton).mp hperm.symm).symm
    | x :: y :: rest, _ => simp at hlen
  rw [this]

/-- C1 witness: a one-attribute record formats identically under the only
iteration order of its map. -/
theorem claim1_witness :
    fmtc.Format true
      ⟨false, TSFormat.SimpleTimestamp, false, 5, "left", " || ", colors.defaultColours⟩
      ⟨⟨2025, 11, 7, 14, 30, 45, 0⟩, .info, "hello", false, "", 0, [("k", "v")]⟩ =
    fmtc.Format true
      ⟨false, TSFormat.SimpleTimestamp, false, 5, "left", " || ", colors.defaultColours⟩
      ⟨⟨2025, 11, 7, 14, 30, 45, 0⟩, .info, "hello", false, "", 0, [("k", "v")]⟩ :=
  claim1_determinism_amended true
    ⟨false, TSFormat.SimpleTimestamp, false, 5, "left", " || ", colors.defaultColours⟩
    ⟨2025, 11, 7, 14, 30, 45, 0⟩ .info "hello" false "" 0
    [("k", "v")] [("k", "v")] (List.Perm.refl _) (by decide)

end zylog
